import Mathlib

/-!
Shallow embedding of the heuristic malicious-URL detector
(`src/features.py` of the repository), together with proofs about it.

Modelling notes.

* Python strings are `String`; every operation used by the program
  (`lower`, `in`, `split`, `count`, `startswith`, slicing) is modelled on the
  character list `String.data`.  The inputs of interest are ASCII, and the
  models are exact on ASCII; Unicode-only differences of Python
  (`str.lower` beyond ASCII, `\d` matching non-ASCII digits) are out of scope.
* `urllib.parse.urlparse` is an external standard-library function.  It is
  modelled for the strings the program feeds it (they always begin with
  `http://` or `https://` because `extract_url_parts` prepends a scheme):
  tab/CR/LF characters are removed, the authority (`netloc`) is the part
  after `//` up to the first `/`, `?` or `#`, a `ValueError` (`Invalid IPv6
  URL`) is raised when the authority contains `[` without `]` or vice versa
  (modelled as `none`), the fragment is cut at the first `#`, the query at
  the first `?`, and `;params` are removed from the last path segment.
* `tldextract` is an external library; its algorithm is modelled with a
  representative finite subset of the Public Suffix List: cleanup of the
  authority (userinfo, port, trailing dots), detection of valid IPv4
  literals (octets 0-255, no leading zeros, as `tldextract`'s own regex
  validates them), and longest-suffix matching; bracketed IPv6 hosts are
  detected by shape.  The claims settled here do not depend on which
  ordinary suffixes beyond those listed are present.
* `numpy` entropy: the float comparison `entropy > 4.0` is modelled by the
  exact equivalent over naturals.  For a string of length `n` with character
  counts `c₁ … cₖ`, Shannon entropy is `log2 n - (Σ cᵢ·log2 cᵢ)/n`, so
  `entropy > 4  ↔  n·log2 n - Σ cᵢ·log2 cᵢ > 4n  ↔  n^n > 2^(4n) · Π cᵢ^cᵢ`.
  Every concrete input evaluated below is far from the threshold, so the
  floating-point comparison of the program agrees with the exact one.
* Python's `set` has no specified iteration order; `list(set(xs))` is
  modelled by `List.dedup`, and every property proved about the joined
  strings is order-agnostic (membership and no-duplicates only).
* The source updates `score` and `reasons` in one pass of consecutive `if`
  statements; that straight-line accumulation is written here as a sum of
  the per-rule score deltas (`scoreOf`) next to the concatenation of the
  per-rule reason lists (`reasonsOf`), with the rules in source order.
-/

namespace MalURL

/-! ### String helpers (models of the Python string operations) -/

/-- Model of `str.lower` (exact on ASCII). -/
def strToLower (s : String) : String := ⟨s.data.map Char.toLower⟩

/-- Model of `c in s` for a single character. -/
def strHas (s : String) (c : Char) : Bool := s.data.contains c

/-- Prefix test on character lists (model of `str.startswith`). -/
def prefixCheck : List Char → List Char → Bool
  | [], _ => true
  | _ :: _, [] => false
  | a :: as, b :: bs => a == b && prefixCheck as bs

/-- Contiguous-sublist test on character lists, used to model `needle in hay`. -/
def subList (n : List Char) : List Char → Bool
  | [] => n.isEmpty
  | c :: t => prefixCheck n (c :: t) || subList n t

/-- Model of Python's substring test `needle in hay`. -/
def strIn (needle hay : String) : Bool := subList needle.data hay.data

/-- Model of `str.startswith`. -/
def strStartsWith (s pre : String) : Bool := prefixCheck pre.data s.data

/-- Split a character list at every occurrence of `sep`
(model of `str.split(sep)`; `"".split(sep) = ['']`). -/
def splitChar (sep : Char) : List Char → List (List Char)
  | [] => [[]]
  | a :: t =>
    let r := splitChar sep t
    if a = sep then [] :: r
    else
      match r with
      | [] => [[a]]
      | h :: t2 => (a :: h) :: t2

/-- Model of `str.split(sep)` returning strings. -/
def strSplit (s : String) (sep : Char) : List String :=
  (splitChar sep s.data).map (fun l => ⟨l⟩)

/-- Join pieces with a separator character (model of `sep.join`). -/
def joinChar (sep : Char) : List (List Char) → List Char
  | [] => []
  | [x] => x
  | x :: xs => x ++ sep :: joinChar sep xs

/-- Model of `str.count('.')`. -/
def dotCount (s : String) : Nat := (s.data.filter (fun c => c == '.')).length

/-! ### Data of the program -/

/-- `SUSPICIOUS_WORDS` from `features.py`, in source order. -/
def SUSPICIOUS_WORDS : List String :=
  [ "login", "signin", "bank", "update", "confirm", "secure", "account",
    "webscr", "ebayisapi", "verify", "password", "authenticate", "paypal" ]

/-- One entry of `ATTACK_MAPPING`: reason keyword with its
(attack, prevention, OSI layer) triple. -/
structure MappingEntry where
  key : String
  attack : String
  prevention : String
  layer : String
deriving DecidableEq

/-- `ATTACK_MAPPING` from `features.py`, in insertion (source) order. -/
def ATTACK_MAPPING : List MappingEntry :=
  [ { key := "Long URL", attack := "Phishing / URL spoofing",
      prevention := "Avoid clicking suspicious links; verify URL length and domain.",
      layer := "Application Layer" },
    { key := "Long path", attack := "Path-based attacks",
      prevention := "Limit URL length; check for unusual paths.",
      layer := "Application Layer" },
    { key := "@", attack := "Phishing / Credential harvesting",
      prevention := "Do not trust URLs with '@'; verify domain.",
      layer := "Application Layer" },
    { key := "Hyphen in domain", attack := "Phishing / Brand impersonation",
      prevention := "Verify domain spelling; avoid suspicious hyphens.",
      layer := "Application Layer" },
    { key := "Suspicious word", attack := "Phishing / Credential theft",
      prevention := "Do not enter credentials on suspicious sites.",
      layer := "Application Layer" },
    { key := "IP address used as host", attack := "Direct IP attacks / Malware",
      prevention := "Use domain names; avoid direct IP access.",
      layer := "Network Layer" },
    { key := "Many subdomains", attack := "Subdomain takeover / phishing",
      prevention := "Check certificate and domain authenticity.",
      layer := "Application Layer" },
    { key := "High character entropy", attack := "Obfuscated URL / Malware",
      prevention := "Be cautious with random-looking URLs; scan before visiting.",
      layer := "Application Layer" } ]

/-! ### `urllib.parse.urlparse` model -/

/-- `urlsplit` removes tab, CR and LF before parsing. -/
def stripUnsafe (s : String) : String :=
  ⟨s.data.filter (fun c => !(c == '\t' || c == '\r' || c == '\n'))⟩

/-- The part after the scheme prefix (`http:` / `https:`) including the `//`
removed; only applied to strings that begin with one of the two prefixes. -/
def afterScheme (u : String) : String :=
  if strStartsWith (stripUnsafe u) "https://" then ⟨(stripUnsafe u).data.drop 8⟩
  else ⟨(stripUnsafe u).data.drop 7⟩

/-- The authority of the URL: everything after `//` up to the first
`/`, `?` or `#` (model of `urllib.parse`'s `_splitnetloc`). -/
def netlocOf (u : String) : String :=
  ⟨(afterScheme u).data.takeWhile (fun c => !(c == '/' || c == '?' || c == '#'))⟩

/-- `urlparse` removes `;params` from the last segment of the path. -/
def dropParams (p : String) : String :=
  let parts := splitChar '/' p.data
  ⟨joinChar '/' (parts.dropLast ++ [(parts.getLastD []).takeWhile (fun c => !(c == ';'))])⟩

/-- Model of `urllib.parse.urlparse` on a string beginning with `http://` or
`https://`, returning `(netloc, path, query)`; `none` models the
`ValueError: Invalid IPv6 URL` raised when the authority contains `[`
without `]` or vice versa. -/
def parseHttpUrl (u : String) : Option (String × String × String) :=
  let netloc := netlocOf u
  if (strHas netloc '[') != (strHas netloc ']') then none
  else
    let tail := (afterScheme u).data.drop netloc.length
    let beforeFrag := tail.takeWhile (fun c => !(c == '#'))
    let path0 := beforeFrag.takeWhile (fun c => !(c == '?'))
    let query : String :=
      if beforeFrag.contains '?' then ⟨beforeFrag.drop (path0.length + 1)⟩ else ""
    some (netloc, dropParams ⟨path0⟩, query)

/-! ### `tldextract` model -/

/-- The part after the last `@` (model of `rpartition('@')[-1]`). -/
def afterLastAt (l : List Char) : List Char := (splitChar '@' l).getLastD l

/-- Model of `str.rstrip('.')` (ASCII dot only). -/
def dropTrailingDots (l : List Char) : List Char :=
  (l.reverse.dropWhile (fun c => c == '.')).reverse

/-- Model of `str.strip()`. -/
def trimWs (l : List Char) : List Char :=
  ((l.dropWhile Char.isWhitespace).reverse.dropWhile Char.isWhitespace).reverse

/-- Model of `tldextract`'s `lenient_netloc`: strip userinfo and port from the
authority, keep a bracketed IPv6 literal whole, strip whitespace and
trailing dots. -/
def lenientHost (netloc : String) : String :=
  let s1 := netloc.data.takeWhile (fun c => !(c == '/'))
  let s2 := s1.takeWhile (fun c => !(c == '?'))
  let s3 := s2.takeWhile (fun c => !(c == '#'))
  let a := afterLastAt s3
  if a.headD ' ' == '[' && a.contains ']' then
    ⟨a.takeWhile (fun c => !(c == ']')) ++ [']']⟩
  else ⟨dropTrailingDots (trimWs (a.takeWhile (fun c => !(c == ':'))))⟩

/-- Numeric value of a digit string. -/
def digitsVal (o : List Char) : Nat := o.foldl (fun a c => a * 10 + (c.toNat - 48)) 0

/-- One octet of a valid IPv4 literal as `tldextract`'s `IP_RE` accepts it:
digits, value at most 255, no leading zero. -/
def validOctet (o : List Char) : Bool :=
  decide (1 ≤ o.length) && o.all Char.isDigit && decide (digitsVal o ≤ 255) &&
    (o.length == 1 || !(o.headD '0' == '0'))

/-- Model of `tldextract`'s `looks_like_ip` (octet ranges validated). -/
def looksLikeIp (h : String) : Bool :=
  let os := splitChar '.' h.data
  os.length == 4 && os.all validOctet

/-- Shape test for the inside of a bracketed IPv6 host (approximation of
`looks_like_ipv6`; hexadecimal digits, `:` and `.`, at least one `:`). -/
def looksLikeIpv6Ish (inner : List Char) : Bool :=
  decide (0 < inner.length) && inner.contains ':' &&
    inner.all (fun c => c.isDigit || ('a' ≤ c && c ≤ 'f') || ('A' ≤ c && c ≤ 'F') ||
      c == ':' || c == '.')

/-- Representative finite subset of the Public Suffix List, each suffix as its
label list. -/
def publicSuffixes : List (List String) :=
  [ ["com"], ["net"], ["org"], ["edu"], ["gov"], ["mil"], ["int"], ["io"],
    ["co"], ["uk"], ["co", "uk"], ["ac", "uk"], ["info"], ["biz"], ["dev"], ["app"] ]

/-- Case-insensitive membership of a label sequence in the suffix list. -/
def pslHas (ls : List String) : Bool := publicSuffixes.contains (ls.map strToLower)

/-- Index of the first label of the longest matching public suffix;
`labels.length` when no suffix matches (as in `tldextract`). -/
def suffixIdx (labels : List String) : Nat :=
  ((List.range labels.length).find? (fun i => pslHas (labels.drop i))).getD labels.length

/-- Join labels with dots (model of `'.'.join`). -/
def joinLabels (ls : List String) : String := ⟨joinChar '.' (ls.map String.data)⟩

/-- Model of `tldextract.extract` on an authority string, returning
`(subdomain, domain, suffix)`. -/
def tldextractParts (netloc : String) : String × String × String :=
  let h := lenientHost netloc
  if h.data.headD ' ' == '[' && h.data.getLastD ' ' == ']' && decide (4 ≤ h.data.length) &&
      looksLikeIpv6Ish ((h.data.drop 1).dropLast) then
    ("", h, "")
  else
    let labels := strSplit h '.'
    let si := suffixIdx labels
    if si == labels.length && labels.length == 4 && looksLikeIp h then ("", h, "")
    else
      ( if 2 ≤ si then joinLabels (labels.take (si - 1)) else ""
      , if 0 < si then labels.getD (si - 1) "" else ""
      , if si == labels.length then "" else joinLabels (labels.drop si) )

/-! ### `features.py` -/

/-- `has_ip` from `features.py`: the part of the host before any `:` must
match `^\d{1,3}(\.\d{1,3}){3}$` — four groups of one to three digits
separated by dots (the regex is equivalent to this split-based test because
a matching string consists of exactly those four groups). -/
def has_ip (host : String) : Bool :=
  let host_only := (strSplit host ':').headD ""
  let gs := splitChar '.' host_only.data
  gs.length == 4 &&
    gs.all (fun g => decide (1 ≤ g.length) && decide (g.length ≤ 3) && g.all Char.isDigit)

/-- The scheme normalisation at the top of `extract_url_parts`. -/
def url_to_parse (url : String) : String :=
  if strStartsWith url "http://" || strStartsWith url "https://" then url
  else "http://" ++ url

/-- The record returned by `extract_url_parts`. -/
structure URLParts where
  full : String
  host : String
  domain : String
  subdomain : String
  path : String
  query : String
deriving DecidableEq

/-- `extract_url_parts` from `features.py`; `none` models the propagated
`ValueError` of `urlparse` (the function has no exception handler). -/
def extract_url_parts (url : String) : Option URLParts :=
  let u := url_to_parse url
  (parseHttpUrl u).map fun t =>
    let e := tldextractParts t.1
    { full := u
      host := t.1
      domain := e.2.1 ++ (if e.2.2 == "" then "" else "." ++ e.2.2)
      subdomain := e.1
      path := t.2.1
      query := t.2.2 }

/-- Exact-arithmetic model of the entropy test `entropy > 4.0` of
`heuristic_score`: with `n` the length and `cᵢ` the character counts,
`-Σ (cᵢ/n)·log2(cᵢ/n) > 4 ↔ n^n > 2^(4n) · Π cᵢ^cᵢ`. -/
def entropyGt4 (s : String) : Bool :=
  let n := s.data.length
  decide (16 ^ n * ((s.data.dedup).map
    (fun c => (s.data.filter (fun d => d == c)).length)).foldl (fun a c => a * c ^ c) 1
    < n ^ n)

/-- The score accumulated by `heuristic_score`, one addend per rule in source
order (the source adds these deltas to a running `score`). -/
def scoreOf (parts : URLParts) : Nat :=
  let full := strToLower parts.full
  (if 75 < full.length then 1 else 0) +
  (if 50 < parts.path.length then 1 else 0) +
  (if strHas full '@' then 1 else 0) +
  (if strHas parts.domain '-' then 1 else 0) +
  (if (SUSPICIOUS_WORDS.find? (fun w => strIn w full)).isSome then 2 else 0) +
  (if has_ip parts.host then 2 else 0) +
  (if parts.subdomain ≠ "" ∧ 2 ≤ dotCount parts.subdomain then 1 else 0) +
  (if 0 < full.length ∧ entropyGt4 full then 1 else 0)

/-- The reasons appended by `heuristic_score`, in source order; the
suspicious-word loop stops at the first matching keyword (`find?`). -/
def reasonsOf (parts : URLParts) : List String :=
  let full := strToLower parts.full
  (if 75 < full.length then ["Long URL (>75 chars)"] else []) ++
  (if 50 < parts.path.length then ["Long path (>50 chars)"] else []) ++
  (if strHas full '@' then ["Contains '@' (often used in obfuscation)"] else []) ++
  (if strHas parts.domain '-' then ["Hyphen in domain (may be suspicious)"] else []) ++
  (match SUSPICIOUS_WORDS.find? (fun w => strIn w full) with
   | some w => ["Suspicious word found: '" ++ w ++ "'"]
   | none => []) ++
  (if has_ip parts.host then ["IP address used as host"] else []) ++
  (if parts.subdomain ≠ "" ∧ 2 ≤ dotCount parts.subdomain then ["Many subdomains"] else []) ++
  (if 0 < full.length ∧ entropyGt4 full then
    ["High character entropy (looks random/obfuscated)"] else [])

/-- `heuristic_score` from `features.py`. -/
def heuristic_score (url : String) : Option (Nat × List String) :=
  (extract_url_parts url).map fun parts => (scoreOf parts, reasonsOf parts)

/-- The verdict tuple returned by `classify_url`. -/
structure Verdict where
  label : String
  score : Nat
  reasons : List String
  attack_types : String
  prevention_tips : String
  osi_layers : String
deriving DecidableEq

/-- The mapping entries matched by the reasons, in the nested-loop order of
`classify_url` (`for r in reasons: for key in ATTACK_MAPPING: ...`). -/
def matchedEntries (reasons : List String) : List MappingEntry :=
  reasons.flatMap (fun r => ATTACK_MAPPING.filter (fun e => strIn (strToLower e.key) (strToLower r)))

/-- Model of `"; ".join(lst)`. -/
def joinSep (xs : List String) : String :=
  match xs with
  | [] => ""
  | a :: rest => rest.foldl (fun acc b => acc ++ "; " ++ b) a

/-- Model of `"; ".join(list(set(xs))) or "N/A"`; `List.dedup` stands for the
(unordered) `list(set(·))`. -/
def joinSet (xs : List String) : String :=
  let j := joinSep xs.dedup
  if j = "" then "N/A" else j

/-- The verdict built by the body of `classify_url` from the score and
reasons of `heuristic_score`. -/
def verdictOf (p : Nat × List String) : Verdict :=
  let es := matchedEntries p.2
  { label := if 3 ≤ p.1 then "🔴 Malicious" else "🟢 safe"
    score := p.1
    reasons := p.2
    attack_types := joinSet (es.map (fun e => e.attack))
    prevention_tips := joinSet (es.map (fun e => e.prevention))
    osi_layers := joinSet (es.map (fun e => e.layer)) }

/-- `classify_url` from `features.py`; `none` models a propagated
`urlparse` exception. -/
def classify_url (url : String) : Option Verdict :=
  (heuristic_score url).map verdictOf

/-! ### Derived definitions used by the statements -/

/-- The score of all rules except the suspicious-word rule. -/
def scoreNoWord (parts : URLParts) : Nat :=
  let full := strToLower parts.full
  (if 75 < full.length then 1 else 0) +
  (if 50 < parts.path.length then 1 else 0) +
  (if strHas full '@' then 1 else 0) +
  (if strHas parts.domain '-' then 1 else 0) +
  (if has_ip parts.host then 2 else 0) +
  (if parts.subdomain ≠ "" ∧ 2 ≤ dotCount parts.subdomain then 1 else 0) +
  (if 0 < full.length ∧ entropyGt4 full then 1 else 0)

/-- The score of all rules except the `'@'` rule. -/
def scoreNoAt (parts : URLParts) : Nat :=
  let full := strToLower parts.full
  (if 75 < full.length then 1 else 0) +
  (if 50 < parts.path.length then 1 else 0) +
  (if strHas parts.domain '-' then 1 else 0) +
  (if (SUSPICIOUS_WORDS.find? (fun w => strIn w full)).isSome then 2 else 0) +
  (if has_ip parts.host then 2 else 0) +
  (if parts.subdomain ≠ "" ∧ 2 ≤ dotCount parts.subdomain then 1 else 0) +
  (if 0 < full.length ∧ entropyGt4 full then 1 else 0)

/-- The score of all rules except the IP-host rule. -/
def scoreNoIp (parts : URLParts) : Nat :=
  let full := strToLower parts.full
  (if 75 < full.length then 1 else 0) +
  (if 50 < parts.path.length then 1 else 0) +
  (if strHas full '@' then 1 else 0) +
  (if strHas parts.domain '-' then 1 else 0) +
  (if (SUSPICIOUS_WORDS.find? (fun w => strIn w full)).isSome then 2 else 0) +
  (if parts.subdomain ≠ "" ∧ 2 ≤ dotCount parts.subdomain then 1 else 0) +
  (if 0 < full.length ∧ entropyGt4 full then 1 else 0)

/-- Recogniser of the reasons produced by the suspicious-word rule. -/
def isWordReason (r : String) : Bool :=
  SUSPICIOUS_WORDS.any (fun w => r == "Suspicious word found: '" ++ w ++ "'")

/-- What the claim about the joined mapper outputs asks of one output string:
empty collections give the literal `N/A`, non-empty ones are joined from
some duplicate-free component list with exactly the collected members. -/
def JoinOk (xs : List String) (out : String) : Prop :=
  (xs = [] → out = "N/A") ∧
  (xs ≠ [] → ∃ comps : List String, comps.Nodup ∧ (∀ a, a ∈ comps ↔ a ∈ xs) ∧
    out = joinSep comps)

end MalURL

namespace MalURL

/-! ### Basic lemmas about the helpers -/

theorem strData_append (a b : String) : (a ++ b).data = a.data ++ b.data := by
  cases a
  cases b
  rfl

theorem strLen_data (s : String) : s.length = s.data.length := rfl

theorem strLen_append (a b : String) : (a ++ b).length = a.length + b.length := by
  rw [strLen_data, strLen_data, strLen_data, strData_append, List.length_append]

theorem strEq_empty_of_len {s : String} (h : s.length = 0) : s = "" := by
  cases s with
  | mk d =>
    cases d with
    | nil => rfl
    | cons a t => simp [strLen_data] at h

theorem prefixCheck_append_self (l t : List Char) : prefixCheck l (l ++ t) = true := by
  induction l with
  | nil => rfl
  | cons a as ih => simp [prefixCheck, ih]

theorem eq_append_of_prefixCheck :
    ∀ (l m : List Char), prefixCheck l m = true → ∃ t, m = l ++ t := by
  intro l
  induction l with
  | nil => exact fun m _ => ⟨m, rfl⟩
  | cons a as ih =>
    intro m h
    cases m with
    | nil => exact nomatch h
    | cons b bs =>
      simp only [prefixCheck, Bool.and_eq_true, beq_iff_eq] at h
      obtain ⟨hab, hpre⟩ := h
      obtain ⟨t, ht⟩ := ih bs hpre
      exact ⟨t, by rw [hab, ht]; rfl⟩

theorem find?_eq_head_filter {α : Type} (p : α → Bool) (l : List α) :
    l.find? p = (l.filter p).head? := by
  induction l with
  | nil => rfl
  | cons a t ih =>
    by_cases h : p a = true
    · rw [List.find?_cons_of_pos _ h, List.filter_cons_of_pos h]
      rfl
    · rw [List.find?_cons_of_neg _ h, List.filter_cons_of_neg h]
      exact ih

/-! ### Inversion lemmas for the pipeline -/

theorem heuristic_inv {url : String} {sc : Nat} {rs : List String}
    (h : heuristic_score url = some (sc, rs)) :
    ∃ parts, extract_url_parts url = some parts ∧ scoreOf parts = sc ∧ reasonsOf parts = rs := by
  unfold heuristic_score at h
  rcases Option.map_eq_some'.mp h with ⟨parts, hp, he⟩
  cases he
  exact ⟨parts, hp, rfl, rfl⟩

theorem classify_inv {url : String} {v : Verdict} (h : classify_url url = some v) :
    ∃ p, heuristic_score url = some p ∧ v = verdictOf p := by
  unfold classify_url at h
  rcases Option.map_eq_some'.mp h with ⟨p, hp, he⟩
  exact ⟨p, hp, he.symm⟩

theorem extract_full {url : String} {parts : URLParts}
    (h : extract_url_parts url = some parts) : parts.full = url_to_parse url := by
  unfold extract_url_parts at h
  rcases Option.map_eq_some'.mp h with ⟨t, _, he⟩
  cases he
  rfl

/-! ### Membership in the reason list -/

theorem mem_ite_single {c : Prop} [Decidable c] {a b : String} :
    (a ∈ if c then [b] else ([] : List String)) ↔ c ∧ a = b := by
  by_cases h : c <;> simp [h]

theorem mem_word_match {full a : String} :
    (a ∈ match SUSPICIOUS_WORDS.find? (fun w => strIn w full) with
         | some w => ["Suspicious word found: '" ++ w ++ "'"]
         | none => ([] : List String)) ↔
      ∃ w, SUSPICIOUS_WORDS.find? (fun w => strIn w full) = some w ∧
        a = "Suspicious word found: '" ++ w ++ "'" := by
  cases h : SUSPICIOUS_WORDS.find? (fun w => strIn w full) <;> simp [h]

theorem mem_reasonsOf {parts : URLParts} {a : String} :
    a ∈ reasonsOf parts ↔
      (75 < (strToLower parts.full).length ∧ a = "Long URL (>75 chars)") ∨
      (50 < parts.path.length ∧ a = "Long path (>50 chars)") ∨
      (strHas (strToLower parts.full) '@' = true ∧
        a = "Contains '@' (often used in obfuscation)") ∨
      (strHas parts.domain '-' = true ∧ a = "Hyphen in domain (may be suspicious)") ∨
      (∃ w, SUSPICIOUS_WORDS.find? (fun w => strIn w (strToLower parts.full)) = some w ∧
        a = "Suspicious word found: '" ++ w ++ "'") ∨
      (has_ip parts.host = true ∧ a = "IP address used as host") ∨
      ((parts.subdomain ≠ "" ∧ 2 ≤ dotCount parts.subdomain) ∧ a = "Many subdomains") ∨
      ((0 < (strToLower parts.full).length ∧ entropyGt4 (strToLower parts.full) = true) ∧
        a = "High character entropy (looks random/obfuscated)") := by
  unfold reasonsOf
  simp only [List.mem_append, mem_ite_single, mem_word_match, or_assoc]

/-! ### Score decomposition -/

theorem scoreOf_eq_noWord (parts : URLParts) :
    scoreOf parts = scoreNoWord parts +
      (if (SUSPICIOUS_WORDS.find? (fun w => strIn w (strToLower parts.full))).isSome
       then 2 else 0) := by
  simp only [scoreOf, scoreNoWord]
  omega

theorem scoreOf_eq_noAt (parts : URLParts) :
    scoreOf parts = scoreNoAt parts +
      (if strHas (strToLower parts.full) '@' then 1 else 0) := by
  simp only [scoreOf, scoreNoAt]
  omega

theorem scoreOf_eq_noIp (parts : URLParts) :
    scoreOf parts = scoreNoIp parts + (if has_ip parts.host then 2 else 0) := by
  simp only [scoreOf, scoreNoIp]
  omega

end MalURL

namespace MalURL

/-! ### The joined mapper outputs -/

theorem le_length_foldl (l : List String) :
    ∀ acc : String, acc.length ≤ (l.foldl (fun x y => x ++ "; " ++ y) acc).length := by
  induction l with
  | nil => intro acc; exact Nat.le_refl _
  | cons b t ih =>
    intro acc
    refine Nat.le_trans ?_ (ih (acc ++ "; " ++ b))
    rw [strLen_append, strLen_append]
    omega

theorem joinSep_ne_empty {x : String} {xs : List String} (hx : x ≠ "") :
    joinSep (x :: xs) ≠ "" := by
  intro h
  have h1 : x.length ≤ (joinSep (x :: xs)).length := le_length_foldl xs x
  rw [h] at h1
  exact hx (strEq_empty_of_len (Nat.le_zero.mp h1))

theorem joinSet_ok (xs : List String) (hne : ∀ a ∈ xs, a ≠ "") :
    JoinOk xs (joinSet xs) := by
  constructor
  · intro h
    subst h
    rfl
  · intro h
    refine ⟨xs.dedup, List.nodup_dedup xs, fun a => List.mem_dedup, ?_⟩
    unfold joinSet
    cases hdd : xs.dedup with
    | nil =>
      cases hx : xs with
      | nil => exact absurd hx h
      | cons a t =>
        have ha : a ∈ xs.dedup := List.mem_dedup.mpr (by rw [hx]; exact List.mem_cons_self a t)
        rw [hdd] at ha
        exact absurd ha (List.not_mem_nil a)
    | cons c cs =>
      have hc : c ∈ xs := List.mem_dedup.mp (by rw [hdd]; exact List.mem_cons_self c cs)
      have hj : joinSep (c :: cs) ≠ "" := joinSep_ne_empty (hne c hc)
      show (if joinSep (c :: cs) = "" then "N/A" else joinSep (c :: cs)) = joinSep (c :: cs)
      exact if_neg hj

end MalURL

namespace MalURL

/-! ### Claims -/

/-- C8: for the empty-string input, classification degrades gracefully: the
score is 0, the label is the safe label, the reasons list is empty, and in
particular the high-entropy reason is absent. -/
theorem claim8_empty_input_safe :
    classify_url "" = some
      { label := "🟢 safe", score := 0, reasons := [],
        attack_types := "N/A", prevention_tips := "N/A", osi_layers := "N/A" } ∧
    (classify_url "").map
      (fun v => v.reasons.contains "High character entropy (looks random/obfuscated)") =
      some false := by
  exact ⟨by decide, by decide⟩

/-- C3, counterexample: on `http://secure-login.example.com/verify?acct=1` the
hyphen-in-domain rule does NOT fire (the registrable domain is
`example.com`; the hyphen sits in the subdomain), refuting the claim that
this input triggers the hyphen rule. -/
theorem claim3_cex :
    (classify_url "http://secure-login.example.com/verify?acct=1").map
      (fun v => v.reasons.contains "Hyphen in domain (may be suspicious)") = some false := by
  decide

/-- C3, amended: on that input the suspicious-word rule fires on `login`
(first match in list order, +2) and the high-entropy rule fires (+1); the
hyphen-in-domain rule does not (domain `example.com`, hyphen only in
subdomain `secure-login`); the score is 3 and the label is malicious. -/
theorem claim3_amended :
    classify_url "http://secure-login.example.com/verify?acct=1" = some
      { label := "🔴 Malicious", score := 3,
        reasons := ["Suspicious word found: 'login'",
                    "High character entropy (looks random/obfuscated)"],
        attack_types := "Phishing / Credential theft; Obfuscated URL / Malware",
        prevention_tips := "Do not enter credentials on suspicious sites.; Be cautious with random-looking URLs; scan before visiting.",
        osi_layers := "Application Layer" } ∧
    (extract_url_parts "http://secure-login.example.com/verify?acct=1").map
      (fun p => (p.domain, p.subdomain)) = some ("example.com", "secure-login") := by
  exact ⟨by decide, by decide⟩

end MalURL

namespace MalURL

/-- C1, counterexample: at a score-3 input the label is the emoji-decorated
string `🔴 Malicious`, not the spec's literal `malicious` (and the safe
label is `🟢 safe`, not `safe`). -/
theorem claim1_cex :
    (classify_url "http://secure-login.example.com/verify?acct=1").map
      (fun v => (v.score, v.label)) = some (3, "🔴 Malicious") ∧
    ("🔴 Malicious" : String) ≠ "malicious" ∧ ("🟢 safe" : String) ≠ "safe" := by
  exact ⟨by decide, by decide, by decide⟩

/-- C1, amended: every verdict's label is `🔴 Malicious` exactly when the
score is at least 3 and `🟢 safe` exactly when it is below 3; in
particular score 2 gives the safe label and score 3 the malicious one. -/
theorem claim1_threshold :
    ∀ url v, classify_url url = some v →
      (v.label = "🔴 Malicious" ↔ 3 ≤ v.score) ∧
      (v.label = "🟢 safe" ↔ v.score < 3) ∧
      (v.score = 2 → v.label = "🟢 safe") ∧
      (v.score = 3 → v.label = "🔴 Malicious") := by
  intro url v h
  rcases classify_inv h with ⟨p, _, hv⟩
  have hne : ("🔴 Malicious" : String) ≠ "🟢 safe" := by decide
  have hlab : v.label = if 3 ≤ p.1 then "🔴 Malicious" else "🟢 safe" := by rw [hv]; rfl
  have hsc : v.score = p.1 := by rw [hv]; rfl
  rw [hlab, hsc]
  by_cases h3 : 3 ≤ p.1
  · rw [if_pos h3]
    exact ⟨⟨fun _ => h3, fun _ => rfl⟩,
           ⟨fun hh => absurd hh hne, fun hlt => absurd h3 (by omega)⟩,
           fun h2 => absurd h3 (by omega),
           fun _ => rfl⟩
  · rw [if_neg h3]
    exact ⟨⟨fun hh => absurd hh.symm hne, fun hge => absurd hge h3⟩,
           ⟨fun _ => by omega, fun _ => rfl⟩,
           fun _ => rfl,
           fun hs => absurd (by omega : 3 ≤ p.1) h3⟩

/-- C1, witness: the amended threshold theorem applied to the verdict of the
empty string (score 0). -/
theorem claim1_threshold_witness :
    ({ label := "🟢 safe", score := 0, reasons := [], attack_types := "N/A",
       prevention_tips := "N/A", osi_layers := "N/A" } : Verdict).label = "🟢 safe" :=
  (claim1_threshold ""
    { label := "🟢 safe", score := 0, reasons := [], attack_types := "N/A",
      prevention_tips := "N/A", osi_layers := "N/A" } (by decide)).2.1.mpr (by decide)

/-- C2, counterexample: the input `[` makes `urlparse` raise
`ValueError: Invalid IPv6 URL` (the authority `[` has an unmatched
bracket), and `classify_url` propagates it — classify is not total. -/
theorem claim2_cex : classify_url "[" = none := by decide

/-- C2, amended: whenever the parsed authority contains neither `[` nor `]`
— in particular for the empty string and ordinary garbage text —
`classify_url` returns a verdict and nothing is raised. -/
theorem claim2_total_no_brackets :
    ∀ url, strHas (netlocOf (url_to_parse url)) '[' = false →
      strHas (netlocOf (url_to_parse url)) ']' = false →
      (classify_url url).isSome = true := by
  intro url h1 h2
  simp only [classify_url, heuristic_score, extract_url_parts, parseHttpUrl, h1, h2]
  rfl

/-- C2, witness: the amended totality theorem applied to a garbage input. -/
theorem claim2_total_no_brackets_witness :
    strHas (netlocOf (url_to_parse "hello world")) '[' = false ∧
    strHas (netlocOf (url_to_parse "hello world")) ']' = false ∧
    (classify_url "hello world").isSome = true :=
  ⟨by decide, by decide, claim2_total_no_brackets "hello world" (by decide) (by decide)⟩

/-- C5: a string that starts with neither `http://` nor `https://` gets
`http://` prepended before parsing, and the scheme-less
`example.com/login` still triggers the suspicious-word rule on `login`. -/
theorem claim5_scheme_prepend :
    (∀ url, strStartsWith url "http://" = false → strStartsWith url "https://" = false →
        url_to_parse url = "http://" ++ url) ∧
    (extract_url_parts "example.com/login").map (fun p => p.full) =
      some "http://example.com/login" ∧
    heuristic_score "example.com/login" = some (2, ["Suspicious word found: 'login'"]) := by
  refine ⟨?_, by decide, by decide⟩
  intro url h1 h2
  simp only [url_to_parse, h1, h2]
  rfl

/-- C5, witness: the prepend branch applied to the concrete scheme-less
input. -/
theorem claim5_scheme_prepend_witness :
    strStartsWith "example.com/login" "http://" = false ∧
    strStartsWith "example.com/login" "https://" = false ∧
    url_to_parse "example.com/login" = "http://" ++ "example.com/login" :=
  ⟨by decide, by decide, claim5_scheme_prepend.1 "example.com/login" (by decide) (by decide)⟩

end MalURL

namespace MalURL

theorem strLen_toLower (s : String) : (strToLower s).length = s.length :=
  List.length_map s.data Char.toLower

/-- C10: for every successfully decomposed input, the `full` field begins
with `http://` or `https://`, has length at least 7, is never empty, and
therefore the non-emptiness guard in front of the entropy rule always
passes (the delta of that rule depends on the entropy test alone); the
empty input itself decomposes with `full = "http://"`. -/
theorem claim10_full_schemed :
    (∀ url parts, extract_url_parts url = some parts →
      (strStartsWith parts.full "http://" = true ∨
        strStartsWith parts.full "https://" = true) ∧
      7 ≤ parts.full.length ∧ parts.full ≠ "" ∧
      ((if 0 < (strToLower parts.full).length ∧ entropyGt4 (strToLower parts.full) = true
        then (1:Nat) else 0)
        = if entropyGt4 (strToLower parts.full) = true then 1 else 0)) ∧
    extract_url_parts "" = some
      { full := "http://", host := "", domain := "", subdomain := "",
        path := "", query := "" } := by
  refine ⟨?_, by decide⟩
  intro url parts hp
  have hfull : parts.full = url_to_parse url := extract_full hp
  have hstart : strStartsWith parts.full "http://" = true ∨
      strStartsWith parts.full "https://" = true := by
    rw [hfull]
    unfold url_to_parse
    by_cases hs : (strStartsWith url "http://" || strStartsWith url "https://") = true
    · rw [if_pos hs]
      simp only [Bool.or_eq_true] at hs
      exact hs
    · rw [if_neg hs]
      left
      show prefixCheck "http://".data ("http://" ++ url).data = true
      rw [strData_append]
      exact prefixCheck_append_self _ _
  have hlen : 7 ≤ parts.full.length := by
    have h7 : ("http://".data).length = 7 := rfl
    have h8 : ("https://".data).length = 8 := rfl
    rcases hstart with h | h
    · rcases eq_append_of_prefixCheck _ _ h with ⟨t, ht⟩
      rw [strLen_data, ht, List.length_append]
      omega
    · rcases eq_append_of_prefixCheck _ _ h with ⟨t, ht⟩
      rw [strLen_data, ht, List.length_append]
      omega
  refine ⟨hstart, hlen, ?_, ?_⟩
  · intro he
    rw [he] at hlen
    exact absurd hlen (by decide)
  · have hpos : 0 < (strToLower parts.full).length := by
      rw [strLen_toLower]
      omega
    by_cases hent : entropyGt4 (strToLower parts.full) = true
    · rw [if_pos ⟨hpos, hent⟩, if_pos hent]
    · rw [if_neg (fun hh => hent hh.2), if_neg hent]

/-- C10, witness: the invariant applied to the empty input, whose `full`
field is `http://`. -/
theorem claim10_full_schemed_witness :
    (strStartsWith "http://" "http://" = true ∨
      strStartsWith "http://" "https://" = true) ∧
    7 ≤ ("http://" : String).length ∧ ("http://" : String) ≠ "" ∧
    ((if 0 < (strToLower "http://").length ∧ entropyGt4 (strToLower "http://") = true
      then (1:Nat) else 0) = if entropyGt4 (strToLower "http://") = true then 1 else 0) :=
  claim10_full_schemed.1 ""
    { full := "http://", host := "", domain := "", subdomain := "", path := "", query := "" }
    (by decide)

theorem heuristic_parts {url : String} {sc : Nat} {rs : List String} {parts : URLParts}
    (h : heuristic_score url = some (sc, rs)) (hp : extract_url_parts url = some parts) :
    scoreOf parts = sc ∧ reasonsOf parts = rs := by
  unfold heuristic_score at h
  rw [hp, Option.map_some'] at h
  have h2 := Option.some.inj h
  exact ⟨congrArg Prod.fst h2, congrArg Prod.snd h2⟩

theorem ite_isSome_find? {α : Type} [DecidableEq α] (p : α → Bool) (l : List α) :
    (if (l.find? p).isSome then (2:Nat) else 0) = if l.filter p = [] then 0 else 2 := by
  rw [find?_eq_head_filter]
  cases hf : l.filter p <;> simp

theorem filter_ite_single {c : Prop} [Decidable c] {b : String} {p : String → Bool}
    (hb : p b = false) : (if c then [b] else ([] : List String)).filter p = [] := by
  by_cases h : c <;> simp [h, hb]

theorem filter_word_reasonsOf (parts : URLParts) :
    (reasonsOf parts).filter isWordReason =
      match SUSPICIOUS_WORDS.find? (fun w => strIn w (strToLower parts.full)) with
      | some w => ["Suspicious word found: '" ++ w ++ "'"]
      | none => [] := by
  have h1 : isWordReason "Long URL (>75 chars)" = false := by decide
  have h2 : isWordReason "Long path (>50 chars)" = false := by decide
  have h3 : isWordReason "Contains '@' (often used in obfuscation)" = false := by decide
  have h4 : isWordReason "Hyphen in domain (may be suspicious)" = false := by decide
  have h5 : isWordReason "IP address used as host" = false := by decide
  have h6 : isWordReason "Many subdomains" = false := by decide
  have h7 : isWordReason "High character entropy (looks random/obfuscated)" = false := by decide
  unfold reasonsOf
  simp only [List.filter_append, filter_ite_single h1, filter_ite_single h2,
    filter_ite_single h3, filter_ite_single h4, filter_ite_single h5, filter_ite_single h6,
    filter_ite_single h7, List.nil_append, List.append_nil]
  cases hf : SUSPICIOUS_WORDS.find? (fun w => strIn w (strToLower parts.full)) with
  | none => rfl
  | some w =>
    have hw : w ∈ SUSPICIOUS_WORDS := List.mem_of_find?_eq_some hf
    have ht : isWordReason ("Suspicious word found: '" ++ w ++ "'") = true := by
      unfold isWordReason
      exact List.any_eq_true.mpr ⟨w, hw, by simp⟩
    simp [ht]

/-- C4: the suspicious-word rule contributes exactly 0 (no keyword occurs)
or exactly 2 (at least one occurs) to the score, never more; the reason
list carries at most one suspicious-word reason, and it names the first
matching keyword in list order. -/
theorem claim4_word_rule :
    ∀ url sc rs parts, heuristic_score url = some (sc, rs) →
      extract_url_parts url = some parts →
      (sc = scoreNoWord parts +
        (if SUSPICIOUS_WORDS.filter (fun w => strIn w (strToLower parts.full)) = []
         then 0 else 2)) ∧
      rs.filter isWordReason =
        (match (SUSPICIOUS_WORDS.filter (fun w => strIn w (strToLower parts.full))).head? with
         | some w => ["Suspicious word found: '" ++ w ++ "'"]
         | none => []) ∧
      (rs.filter isWordReason).length ≤ 1 := by
  intro url sc rs parts h hp
  obtain ⟨hsc, hrs⟩ := heuristic_parts h hp
  have hfw : rs.filter isWordReason =
      match (SUSPICIOUS_WORDS.filter (fun w => strIn w (strToLower parts.full))).head? with
      | some w => ["Suspicious word found: '" ++ w ++ "'"]
      | none => [] := by
    rw [← hrs, filter_word_reasonsOf, find?_eq_head_filter]
  refine ⟨?_, hfw, ?_⟩
  · rw [← hsc, scoreOf_eq_noWord, ite_isSome_find?]
  · rw [hfw]
    cases (SUSPICIOUS_WORDS.filter (fun w => strIn w (strToLower parts.full))).head? <;> simp

/-- C4, witness: `http://loginsecure.org` contains two keywords (`login`,
`secure`) yet gets a single +2 and the single reason for `login`. -/
theorem claim4_word_rule_witness :
    heuristic_score "http://loginsecure.org" =
      some (2, ["Suspicious word found: 'login'"]) ∧
    ((2:Nat) = scoreNoWord
        { full := "http://loginsecure.org", host := "loginsecure.org",
          domain := "loginsecure.org", subdomain := "", path := "", query := "" } +
      (if SUSPICIOUS_WORDS.filter (fun w => strIn w (strToLower "http://loginsecure.org")) = []
       then 0 else 2)) ∧
    (["Suspicious word found: 'login'"].filter isWordReason =
      match (SUSPICIOUS_WORDS.filter
          (fun w => strIn w (strToLower "http://loginsecure.org"))).head? with
        | some w => ["Suspicious word found: '" ++ w ++ "'"]
        | none => []) ∧
    (["Suspicious word found: 'login'"].filter isWordReason).length ≤ 1 :=
  ⟨by decide,
   claim4_word_rule "http://loginsecure.org" 2 ["Suspicious word found: 'login'"]
    { full := "http://loginsecure.org", host := "loginsecure.org",
      domain := "loginsecure.org", subdomain := "", path := "", query := "" }
    (by decide) (by decide)⟩

end MalURL

namespace MalURL

/-- C6: the IP-host rule fires exactly when `has_ip` accepts the host — the
part before any `:` is four dot-separated groups of one to three digits,
with no octet-range validation — and then contributes exactly +2; in
particular the out-of-range `999.999.999.999` (also with a port) passes the
test and triggers the rule. -/
theorem claim6_ip_rule :
    (∀ url sc rs parts, heuristic_score url = some (sc, rs) →
        extract_url_parts url = some parts →
        (("IP address used as host" ∈ rs) ↔ has_ip parts.host = true) ∧
        sc = scoreNoIp parts + (if has_ip parts.host then 2 else 0)) ∧
    has_ip "999.999.999.999" = true ∧
    has_ip "999.999.999.999:8080" = true ∧
    (heuristic_score "http://999.999.999.999").map
      (fun p => p.2.contains "IP address used as host") = some true := by
  refine ⟨?_, by decide, by decide, by decide⟩
  intro url sc rs parts h hp
  obtain ⟨hsc, hrs⟩ := heuristic_parts h hp
  constructor
  · rw [← hrs, mem_reasonsOf]
    constructor
    · rintro (⟨_, he⟩ | ⟨_, he⟩ | ⟨_, he⟩ | ⟨_, he⟩ | ⟨w, hw, he⟩ | ⟨hc, _⟩ | ⟨_, he⟩ | ⟨_, he⟩)
      · exact absurd he (by decide)
      · exact absurd he (by decide)
      · exact absurd he (by decide)
      · exact absurd he (by decide)
      · have hmem := List.mem_of_find?_eq_some hw
        have hne : ∀ w' ∈ SUSPICIOUS_WORDS,
            ("IP address used as host" : String) ≠ "Suspicious word found: '" ++ w' ++ "'" := by
          decide
        exact absurd he (hne w hmem)
      · exact hc
      · exact absurd he (by decide)
      · exact absurd he (by decide)
    · intro hip
      exact Or.inr (Or.inr (Or.inr (Or.inr (Or.inr (Or.inl ⟨hip, rfl⟩)))))
  · rw [← hsc, scoreOf_eq_noIp]

/-- C6, witness: the rule characterisation applied to
`http://999.999.999.999` (score 3 = 1 from many-subdomains + 2 from the
IP rule). -/
theorem claim6_ip_rule_witness :
    (("IP address used as host" ∈ ["IP address used as host", "Many subdomains"]) ↔
      has_ip "999.999.999.999" = true) ∧
    (3:Nat) = scoreNoIp
      { full := "http://999.999.999.999", host := "999.999.999.999", domain := "999",
        subdomain := "999.999.999", path := "", query := "" } +
      (if has_ip "999.999.999.999" then 2 else 0) :=
  claim6_ip_rule.1 "http://999.999.999.999" 3 ["IP address used as host", "Many subdomains"]
    { full := "http://999.999.999.999", host := "999.999.999.999", domain := "999",
      subdomain := "999.999.999", path := "", query := "" }
    (by decide) (by decide)

/-- C7: every URL whose lowercased full string contains `@` gets the `@`
reason and exactly +1 from that rule; and inserting an `@` into an
otherwise rule-free URL (no rule fires on the original, no rule but the `@`
rule fires on the result) raises the score by exactly 1. -/
theorem claim7_at_rule :
    (∀ url sc rs parts, heuristic_score url = some (sc, rs) →
        extract_url_parts url = some parts →
        strHas (strToLower parts.full) '@' = true →
        ("Contains '@' (often used in obfuscation)" ∈ rs ∧ sc = scoreNoAt parts + 1)) ∧
    (∀ a b u v su rsu sv rsv partsv,
        u = a ++ b → v = a ++ "@" ++ b →
        heuristic_score u = some (su, rsu) → su = 0 →
        heuristic_score v = some (sv, rsv) →
        extract_url_parts v = some partsv →
        scoreNoAt partsv = 0 →
        sv = su + 1) := by
  constructor
  · intro url sc rs parts h hp hat
    obtain ⟨hsc, hrs⟩ := heuristic_parts h hp
    constructor
    · rw [← hrs, mem_reasonsOf]
      exact Or.inr (Or.inr (Or.inl ⟨hat, rfl⟩))
    · rw [← hsc, scoreOf_eq_noAt, if_pos hat]
  · intro a b u v su rsu sv rsv partsv hueq hveq hu hsu hv hpv hnoat
    obtain ⟨hscv, _⟩ := heuristic_parts hv hpv
    have hfull : partsv.full = url_to_parse v := extract_full hpv
    have hvmem : '@' ∈ v.data := by
      rw [hveq, strData_append, strData_append]
      simp
    have hfmem : '@' ∈ (url_to_parse v).data := by
      unfold url_to_parse
      by_cases hs : (strStartsWith v "http://" || strStartsWith v "https://") = true
      · rw [if_pos hs]
        exact hvmem
      · rw [if_neg hs, strData_append]
        exact List.mem_append.mpr (Or.inr hvmem)
    have hlow : strHas (strToLower partsv.full) '@' = true := by
      rw [hfull]
      show ((url_to_parse v).data.map Char.toLower).contains '@' = true
      exact List.elem_iff.mpr (List.mem_map.mpr ⟨'@', hfmem, by decide⟩)
    rw [← hscv, scoreOf_eq_noAt, hnoat, if_pos hlow, hsu]

/-- C7, witness: both parts applied to `http://x` (score 0) and
`http://@x` (score 1, only the `@` rule fires). -/
theorem claim7_at_rule_witness :
    ("Contains '@' (often used in obfuscation)" ∈
        ["Contains '@' (often used in obfuscation)"] ∧
      (1:Nat) = scoreNoAt
        { full := "http://@x", host := "@x", domain := "x", subdomain := "",
          path := "", query := "" } + 1) ∧
    (1:Nat) = 0 + 1 :=
  ⟨claim7_at_rule.1 "http://@x" 1 ["Contains '@' (often used in obfuscation)"]
    { full := "http://@x", host := "@x", domain := "x", subdomain := "",
      path := "", query := "" } (by decide) (by decide) (by decide),
   claim7_at_rule.2 "http://" "x" "http://x" "http://@x" 0 [] 1
    ["Contains '@' (often used in obfuscation)"]
    { full := "http://@x", host := "@x", domain := "x", subdomain := "",
      path := "", query := "" }
    (by decide) (by decide) (by decide) rfl (by decide) (by decide) (by decide)⟩

theorem matched_entry_mem {rs : List String} {e : MappingEntry}
    (he : e ∈ matchedEntries rs) : e ∈ ATTACK_MAPPING := by
  rcases List.mem_flatMap.mp he with ⟨r, _, hr⟩
  exact (List.mem_filter.mp hr).1

/-- C9: each of the three mapper output strings of every verdict is either
the literal `N/A` (exactly when nothing was collected) or the `"; "`-join
of a duplicate-free list containing precisely the collected values —
deduplicated independently, with no ordering promised. -/
theorem claim9_mapper :
    ∀ url v, classify_url url = some v →
      JoinOk ((matchedEntries v.reasons).map (fun e => e.attack)) v.attack_types ∧
      JoinOk ((matchedEntries v.reasons).map (fun e => e.prevention)) v.prevention_tips ∧
      JoinOk ((matchedEntries v.reasons).map (fun e => e.layer)) v.osi_layers := by
  intro url v h
  rcases classify_inv h with ⟨p, _, hv⟩
  have hall : ∀ e ∈ ATTACK_MAPPING, e.attack ≠ "" ∧ e.prevention ≠ "" ∧ e.layer ≠ "" := by
    decide
  have hres : v.reasons = p.2 := by rw [hv]; rfl
  have h1 : v.attack_types = joinSet ((matchedEntries p.2).map (fun e => e.attack)) := by
    rw [hv]; rfl
  have h2 : v.prevention_tips = joinSet ((matchedEntries p.2).map (fun e => e.prevention)) := by
    rw [hv]; rfl
  have h3 : v.osi_layers = joinSet ((matchedEntries p.2).map (fun e => e.layer)) := by
    rw [hv]; rfl
  rw [hres, h1, h2, h3]
  refine ⟨joinSet_ok _ ?_, joinSet_ok _ ?_, joinSet_ok _ ?_⟩
  · intro x hx
    rcases List.mem_map.mp hx with ⟨e, he, hxe⟩
    rw [← hxe]
    exact (hall e (matched_entry_mem he)).1
  · intro x hx
    rcases List.mem_map.mp hx with ⟨e, he, hxe⟩
    rw [← hxe]
    exact (hall e (matched_entry_mem he)).2.1
  · intro x hx
    rcases List.mem_map.mp hx with ⟨e, he, hxe⟩
    rw [← hxe]
    exact (hall e (matched_entry_mem he)).2.2

/-- C9, witness: the joined-output property applied to the verdict of the
empty string, whose three outputs are all `N/A`. -/
theorem claim9_mapper_witness :
    JoinOk ((matchedEntries ([] : List String)).map (fun e => e.attack)) "N/A" ∧
    JoinOk ((matchedEntries ([] : List String)).map (fun e => e.prevention)) "N/A" ∧
    JoinOk ((matchedEntries ([] : List String)).map (fun e => e.layer)) "N/A" :=
  claim9_mapper ""
    { label := "🟢 safe", score := 0, reasons := [], attack_types := "N/A",
      prevention_tips := "N/A", osi_layers := "N/A" } (by decide)

end MalURL
